import Mathlib

/-!
Verification of the scoring and normalization engine of the RealEstateHack
repository against its natural-language specification.

The embedding follows backend/services/scoring.py and
backend/utils/normalize.py.  Python floats are modelled as exact rationals
wherever the source only performs field arithmetic and comparisons; the one
transcendental step (the sigmoid applied to the z-scored composite) is
modelled over the reals with Real.exp.  Python round applied to a float
rounds half to even; this is modelled by pyround below.
-/

namespace Scoring

/-- Model of Python int(round x) on a real number: round half to even. -/
noncomputable def pyround (x : ℝ) : ℤ :=
  open Classical in
  if Int.fract x = 1 / 2 then (if Even ⌊x⌋ then ⌊x⌋ else ⌊x⌋ + 1) else round x

/-- scoring.py _clamp_int: max(lo, min(hi, v)). -/
def _clamp_int (v lo hi : ℤ) : ℤ := max lo (min hi v)

/-- scoring.py _z: z-score with the None and std == 0 guards. -/
def _z (x : Option ℚ) (mean std : ℚ) : ℚ :=
  match x with
  | none => 0
  | some v => if std = 0 then 0 else (v - mean) / std

/-- scoring.py _robust_minmax: min-max normalize with optional clipping,
returning 0.5 when hi == lo.  Clipping happens only when a clip bound is
provided; there is no unconditional clamp to [lo, hi]. -/
def _robust_minmax (x lo hi : ℚ) (clip_lo clip_hi : Option ℚ) : ℚ :=
  let x1 : ℚ := match clip_lo with
    | some c => if x < c then c else x
    | none => x
  let x2 : ℚ := match clip_hi with
    | some c => if x1 > c then c else x1
    | none => x1
  if hi = lo then 1 / 2 else (x2 - lo) / (hi - lo)

/-- scoring.py _sigmoid: 1 / (1 + exp(-z)). -/
noncomputable def _sigmoid (z : ℝ) : ℝ := 1 / (1 + Real.exp (-z))

/-- The metrics dict consumed by score_property.  Each catalog key is an
optional value; a missing dict key is a none field. -/
structure Metrics where
  cap_rate_market_now : Option ℚ
  rent_growth_proj_12m : Option ℚ
  income_median_now : Option ℚ
  income_growth_3y : Option ℚ
  vacancy_rate_now : Option ℚ
  dom_now : Option ℚ
  rent_to_income : Option ℚ
deriving DecidableEq

/-- The norms dict consumed by score_property: four min-max tuples
(lo, hi, clip_lo, clip_hi) and five z-score (mean, std) pairs. -/
structure Norms where
  cap_minmax : ℚ × ℚ × Option ℚ × Option ℚ
  rentg_minmax : ℚ × ℚ × Option ℚ × Option ℚ
  msi_minmax : ℚ × ℚ × Option ℚ × Option ℚ
  aff_minmax : ℚ × ℚ × Option ℚ × Option ℚ
  income_median_z : ℚ × ℚ
  income_growth_z : ℚ × ℚ
  vacancy_z : ℚ × ℚ
  dom_z : ℚ × ℚ
  raw_z : ℚ × ℚ
deriving DecidableEq

/-- scoring.py Factor dataclass. -/
structure Factor where
  name : String
  weight : ℚ
  value : ℚ
  contrib : ℚ
deriving DecidableEq

/-- The dict returned by score_property. -/
structure ScoreResult where
  score : ℤ
  decision : String
  msi : ℚ
  factors : List Factor
deriving DecidableEq

/-- scoring.py score_property.  A Python KeyError on a required metrics key
is modelled as Except.error; the access order matches source evaluation
order (the MSI block at lines 52-60 runs before the cap-rate access at
line 63). -/
noncomputable def score_property (m : Metrics) (n : Norms) :
    Except String ScoreResult :=
  match m.income_median_now with
  | none => .error "KeyError: income_median_now"
  | some inc =>
  match m.income_growth_3y with
  | none => .error "KeyError: income_growth_3y"
  | some incg =>
  match m.vacancy_rate_now with
  | none => .error "KeyError: vacancy_rate_now"
  | some vac =>
  match m.cap_rate_market_now with
  | none => .error "KeyError: cap_rate_market_now"
  | some cap =>
  match m.rent_growth_proj_12m with
  | none => .error "KeyError: rent_growth_proj_12m"
  | some rentg =>
    let dom_z : ℚ := match m.dom_now with
      | some d => _z (some d) n.dom_z.1 n.dom_z.2
      | none => 0
    let msi : ℚ :=
      _z (some inc) n.income_median_z.1 n.income_median_z.2
        + _z (some incg) n.income_growth_z.1 n.income_growth_z.2
        - _z (some vac) n.vacancy_z.1 n.vacancy_z.2
        - dom_z
    let cap_norm : ℚ := _robust_minmax cap n.cap_minmax.1 n.cap_minmax.2.1
      n.cap_minmax.2.2.1 n.cap_minmax.2.2.2
    let rentg_norm : ℚ := _robust_minmax rentg n.rentg_minmax.1
      n.rentg_minmax.2.1 n.rentg_minmax.2.2.1 n.rentg_minmax.2.2.2
    let msi_norm : ℚ := _robust_minmax msi n.msi_minmax.1 n.msi_minmax.2.1
      n.msi_minmax.2.2.1 n.msi_minmax.2.2.2
    let aff_value : ℚ := 1 - m.rent_to_income.getD (3 / 10)
    let aff_norm : ℚ := _robust_minmax aff_value n.aff_minmax.1
      n.aff_minmax.2.1 n.aff_minmax.2.2.1 n.aff_minmax.2.2.2
    let raw : ℚ := 35 / 100 * cap_norm + 35 / 100 * rentg_norm
      + 20 / 100 * msi_norm + 10 / 100 * aff_norm
    let score : ℤ :=
      pyround (100 * _sigmoid ((_z (some raw) n.raw_z.1 n.raw_z.2 : ℚ) : ℝ))
    let decision : String :=
      if 75 ≤ score then "Buy" else if 55 ≤ score then "Hold" else "Sell"
    .ok
      { score := _clamp_int score 0 100
        decision := decision
        msi := msi
        factors :=
          [⟨"Market Cap Rate", 35 / 100, cap, 35 / 100 * cap_norm * 100⟩,
           ⟨"Projected Rent Growth (12m)", 35 / 100, rentg,
             35 / 100 * rentg_norm * 100⟩,
           ⟨"Market Strength Index (MSI)", 20 / 100, msi,
             20 / 100 * msi_norm * 100⟩,
           ⟨"Affordability (1 - Rent/Inc)", 10 / 100, aff_value,
             10 / 100 * aff_norm * 100⟩] }

/-- numpy ascending sort of the sample (values only; the source sort is
stable, which is irrelevant for plain numbers). -/
def sortQ (l : List ℚ) : List ℚ := l.insertionSort (· ≤ ·)

/-- Linear interpolation between order statistics of an ascending sample,
at fractional index h: s[i] + (h - i) * (s[i+1] - s[i]) with i = floor h.
Out-of-range upper index repeats the lower value. -/
def interp (s : List ℚ) (h : ℚ) : ℚ :=
  s.getD ⌊h⌋.toNat 0 +
    (h - ⌊h⌋) * (s.getD (⌊h⌋.toNat + 1) (s.getD ⌊h⌋.toNat 0) - s.getD ⌊h⌋.toNat 0)

/-- numpy percentile with the default linear interpolation between order
statistics, for 0 ≤ q ≤ 100 (the only range the source uses).  An empty
sample yields 0 (numpy would raise; no call site reaches this). -/
def percentile (l : List ℚ) (q : ℚ) : ℚ :=
  let s : List ℚ := sortQ l
  if s.length = 0 then 0 else interp s (q * (s.length - 1) / 100)

/-- scoring.py _pct_clip: the (lo_pct, hi_pct) percentiles of an array. -/
def _pct_clip (arr : List ℚ) (lo_pct hi_pct : ℚ) : ℚ × ℚ :=
  (percentile arr lo_pct, percentile arr hi_pct)

/-- scoring.py _mean_std: numpy nanmean and nanstd (population std).  The
mean is rational; the standard deviation introduces a real square root. -/
noncomputable def _mean_std (arr : List ℚ) : ℝ × ℝ :=
  let m : ℚ := arr.sum / (arr.length : ℚ)
  (((m : ℚ) : ℝ),
    Real.sqrt (((((arr.map fun x => (x - m) ^ 2).sum / (arr.length : ℚ)) : ℚ) : ℝ)))

/-- The series_dict consumed by build_norms_from_dataset. -/
structure Dataset where
  cap : List ℚ
  rentg_12m : List ℚ
  income_median : List ℚ
  income_growth_3y : List ℚ
  vacancy : List ℚ
  dom : List ℚ
  aff : List ℚ
deriving DecidableEq

/-- The norms dict produced by build_norms_from_dataset.  The min-max
tuples are rational (percentiles of rational data); the z pairs carry the
real-valued standard deviations. -/
structure CalNorms where
  cap_minmax : ℚ × ℚ × Option ℚ × Option ℚ
  rentg_minmax : ℚ × ℚ × Option ℚ × Option ℚ
  msi_minmax : ℚ × ℚ × Option ℚ × Option ℚ
  aff_minmax : ℚ × ℚ × Option ℚ × Option ℚ
  income_median_z : ℝ × ℝ
  income_growth_z : ℝ × ℝ
  vacancy_z : ℝ × ℝ
  dom_z : ℝ × ℝ
  raw_z : ℚ × ℚ

/-- scoring.py build_norms_from_dataset.  The source default for
robust_percentiles is (5.0, 95.0); callers here pass it explicitly. -/
noncomputable def build_norms_from_dataset (d : Dataset)
    (robust_percentiles : ℚ × ℚ) : CalNorms :=
  let p_lo : ℚ := robust_percentiles.1
  let p_hi : ℚ := robust_percentiles.2
  let capb : ℚ × ℚ := _pct_clip d.cap p_lo p_hi
  let rgb : ℚ × ℚ := _pct_clip d.rentg_12m p_lo p_hi
  let affb : ℚ × ℚ := _pct_clip d.aff p_lo p_hi
  let imz : ℝ × ℝ := _mean_std d.income_median
  let igz : ℝ × ℝ := _mean_std d.income_growth_3y
  let vz : ℝ × ℝ := _mean_std d.vacancy
  let dz : ℝ × ℝ := _mean_std d.dom
  { cap_minmax := (capb.1, capb.2, some capb.1, some capb.2)
    rentg_minmax := (rgb.1, rgb.2, some rgb.1, some rgb.2)
    msi_minmax := (-3, 3, none, none)
    aff_minmax := (affb.1, affb.2, none, none)
    income_median_z := (imz.1, max imz.2 (1 / 1000000000))
    income_growth_z := (igz.1, max igz.2 (1 / 1000000000))
    vacancy_z := (vz.1, max vz.2 (1 / 1000000000))
    dom_z := (dz.1, max dz.2 (1 / 1000000000))
    raw_z := (1 / 2, 12 / 100) }

/-- normalize.py bounded_min_max.  Over exact rationals every value is
finite, so the np.isfinite filter keeps the whole list. -/
def bounded_min_max (value : ℚ) (values : List ℚ)
    (percentile_clip : ℚ × ℚ) : ℚ :=
  if values = [] then 1 / 2
  else
    let lower : ℚ := percentile values (percentile_clip.1 * 100)
    let upper : ℚ := percentile values (percentile_clip.2 * 100)
    if upper = lower then 1 / 2
    else
      let v : ℚ := max lower (min upper value)
      let normalized : ℚ := (v - lower) / (upper - lower)
      max 0 (min 1 normalized)

/-- Whether a score_property call returned normally (no KeyError). -/
def isOk (e : Except String ScoreResult) : Bool :=
  match e with
  | .ok _ => true
  | .error _ => false

/-- The score field of a normal result (0 for an error, unused there). -/
def scoreOf (e : Except String ScoreResult) : ℤ :=
  match e with
  | .ok r => r.score
  | .error _ => 0

/-- The local dom_z of score_property as a function of its inputs. -/
def dom_z_val (domv : Option ℚ) (n : Norms) : ℚ :=
  match domv with
  | some d => _z (some d) n.dom_z.1 n.dom_z.2
  | none => 0

/-- The local msi of score_property as a function of its inputs. -/
def msi_val (inc incg vac : ℚ) (domv : Option ℚ) (n : Norms) : ℚ :=
  _z (some inc) n.income_median_z.1 n.income_median_z.2
    + _z (some incg) n.income_growth_z.1 n.income_growth_z.2
    - _z (some vac) n.vacancy_z.1 n.vacancy_z.2
    - dom_z_val domv n

/-- The local cap_norm of score_property. -/
def cap_norm_val (cap : ℚ) (n : Norms) : ℚ :=
  _robust_minmax cap n.cap_minmax.1 n.cap_minmax.2.1
    n.cap_minmax.2.2.1 n.cap_minmax.2.2.2

/-- The local rentg_norm of score_property. -/
def rentg_norm_val (rentg : ℚ) (n : Norms) : ℚ :=
  _robust_minmax rentg n.rentg_minmax.1 n.rentg_minmax.2.1
    n.rentg_minmax.2.2.1 n.rentg_minmax.2.2.2

/-- The local msi_norm of score_property. -/
def msi_norm_val (msi : ℚ) (n : Norms) : ℚ :=
  _robust_minmax msi n.msi_minmax.1 n.msi_minmax.2.1
    n.msi_minmax.2.2.1 n.msi_minmax.2.2.2

/-- The local aff_value of score_property: 1 - rent_to_income with the
0.30 default for a missing key. -/
def aff_value_val (rti : Option ℚ) : ℚ := 1 - rti.getD (3 / 10)

/-- The local aff_norm of score_property. -/
def aff_norm_val (affv : ℚ) (n : Norms) : ℚ :=
  _robust_minmax affv n.aff_minmax.1 n.aff_minmax.2.1
    n.aff_minmax.2.2.1 n.aff_minmax.2.2.2

/-- The local raw of score_property: the weighted composite of the four
normalized factors with weights (0.35, 0.35, 0.20, 0.10). -/
def raw_val (cap rentg inc incg vac : ℚ) (domv rti : Option ℚ)
    (n : Norms) : ℚ :=
  35 / 100 * cap_norm_val cap n + 35 / 100 * rentg_norm_val rentg n
    + 20 / 100 * msi_norm_val (msi_val inc incg vac domv n) n
    + 10 / 100 * aff_norm_val (aff_value_val rti) n

/-- The local score of score_property before the final clamp. -/
noncomputable def score0_val (cap rentg inc incg vac : ℚ)
    (domv rti : Option ℚ) (n : Norms) : ℤ :=
  pyround (100 * _sigmoid
    ((_z (some (raw_val cap rentg inc incg vac domv rti n))
        n.raw_z.1 n.raw_z.2 : ℚ) : ℝ))

/-- The result score_property returns when every required key is present,
assembled from the helper values above. -/
noncomputable def okResult (cap rentg inc incg vac : ℚ)
    (domv rti : Option ℚ) (n : Norms) : ScoreResult :=
  let msi : ℚ := msi_val inc incg vac domv n
  let score : ℤ := score0_val cap rentg inc incg vac domv rti n
  { score := _clamp_int score 0 100
    decision :=
      if 75 ≤ score then "Buy" else if 55 ≤ score then "Hold" else "Sell"
    msi := msi
    factors :=
      [⟨"Market Cap Rate", 35 / 100, cap, 35 / 100 * cap_norm_val cap n * 100⟩,
       ⟨"Projected Rent Growth (12m)", 35 / 100, rentg,
         35 / 100 * rentg_norm_val rentg n * 100⟩,
       ⟨"Market Strength Index (MSI)", 20 / 100, msi,
         20 / 100 * msi_norm_val msi n * 100⟩,
       ⟨"Affordability (1 - Rent/Inc)", 10 / 100, aff_value_val rti,
         10 / 100 * aff_norm_val (aff_value_val rti) n * 100⟩] }

/-- A neutral metrics row: every required key present with value 0, dom
absent, rent_to_income 1 (so aff_value is 0). -/
def mStar : Metrics := ⟨some 0, some 0, some 0, some 0, some 0, none, some 1⟩

/-- Neutral norms: every min-max tuple (0, 1, None, None), every z pair
(0, 1). -/
def nStar : Norms :=
  ⟨(0, 1, none, none), (0, 1, none, none), (0, 1, none, none),
   (0, 1, none, none), (0, 1), (0, 1), (0, 1), (0, 1), (0, 1)⟩

/-- The result of score_property on mStar and nStar. -/
def rStar : ScoreResult :=
  ⟨50, "Sell", 0,
   [⟨"Market Cap Rate", 35 / 100, 0, 0⟩,
    ⟨"Projected Rent Growth (12m)", 35 / 100, 0, 0⟩,
    ⟨"Market Strength Index (MSI)", 20 / 100, 0, 0⟩,
    ⟨"Affordability (1 - Rent/Inc)", 10 / 100, 0, 0⟩]⟩

/-- All seven keys present with a physically absurd cap rate of 2.0. -/
def mAbs : Metrics := ⟨some 2, some 0, some 0, some 0, some 0, some 0, some 1⟩

/-- Metrics missing cap_rate_market_now (the other required keys are
present, so the cap-rate access is the one that raises). -/
def mMiss : Metrics := ⟨none, some 0, some 0, some 0, some 0, none, none⟩

/-- Metrics whose rent-growth factor dominates: cap 0, rent growth 1. -/
def mC9 : Metrics := ⟨some 0, some 1, some 0, some 0, some 0, none, some 1⟩

/-- Metrics with rent_to_income absent and everything else neutral. -/
def mNone : Metrics := ⟨some 0, some 0, some 0, some 0, some 0, none, none⟩

/-- Metrics driving the MSI to 10 (income z-score 10, all else 0). -/
def mMsi : Metrics := ⟨some 0, some 0, some 10, some 0, some 0, none, some 1⟩

/-- Norms with the fixed MSI bounds (-3, 3) of the calibrator, no clips. -/
def nMsi : Norms :=
  ⟨(0, 1, none, none), (0, 1, none, none), (-3, 3, none, none),
   (0, 1, none, none), (0, 1), (0, 1), (0, 1), (0, 1), (0, 1)⟩

/-- A small calibration dataset whose cap sample is [0, 1]. -/
def dStar : Dataset := ⟨[0, 1], [0, 1], [0], [0], [0], [0], [0, 1]⟩

/-- When the five required keys are present, score_property succeeds and
returns exactly the okResult assembly of the source locals. -/
lemma score_property_eq_ok (m : Metrics) (n : Norms)
    (inc incg vac cap rentg : ℚ)
    (h1 : m.income_median_now = some inc)
    (h2 : m.income_growth_3y = some incg)
    (h3 : m.vacancy_rate_now = some vac)
    (h4 : m.cap_rate_market_now = some cap)
    (h5 : m.rent_growth_proj_12m = some rentg) :
    score_property m n =
      Except.ok (okResult cap rentg inc incg vac m.dom_now m.rent_to_income n) := by
  unfold score_property
  rw [h1, h2, h3, h4, h5]
  rfl

lemma floor_le_pyround (x : ℝ) : ⌊x⌋ ≤ pyround x := by
  unfold pyround
  split_ifs with h1 h2
  · exact le_refl _
  · omega
  · rw [round_eq]
    exact Int.floor_mono (by linarith)

lemma pyround_le_floor_add_one (x : ℝ) : pyround x ≤ ⌊x⌋ + 1 := by
  unfold pyround
  split_ifs with h1 h2
  · omega
  · exact le_refl _
  · rw [round_eq]
    have h : x + 1 / 2 ≤ x + 1 := by linarith
    calc ⌊x + 1 / 2⌋ ≤ ⌊x + 1⌋ := Int.floor_mono h
    _ = ⌊x⌋ + 1 := by rw [Int.floor_add_one]

lemma pyround_intCast (n : ℤ) : pyround ((n : ℤ) : ℝ) = n := by
  unfold pyround
  rw [Int.fract_intCast]
  norm_num [round_intCast]

lemma pyround_fifty : pyround (50 : ℝ) = 50 := by
  have h : ((50 : ℤ) : ℝ) = (50 : ℝ) := by norm_num
  rw [← h, pyround_intCast]

lemma round_ge_of_fract_ge (x : ℝ) (h : 1 / 2 ≤ Int.fract x) :
    ⌊x⌋ + 1 ≤ round x := by
  rw [round_eq]
  apply Int.le_floor.mpr
  have hfl : (⌊x⌋ : ℝ) + Int.fract x = x := Int.floor_add_fract x
  push_cast
  linarith

lemma round_eq_floor_of_fract_lt (x : ℝ) (h : Int.fract x < 1 / 2) :
    round x = ⌊x⌋ := by
  rw [round_eq]
  have hfl : (⌊x⌋ : ℝ) + Int.fract x = x := Int.floor_add_fract x
  have h1 : ⌊x + 1 / 2⌋ < ⌊x⌋ + 1 := by
    apply Int.floor_lt.mpr
    push_cast
    linarith
  have h2 : ⌊x⌋ ≤ ⌊x + 1 / 2⌋ := Int.floor_mono (by linarith)
  omega

lemma pyround_eq_floor_of_fract_lt (x : ℝ) (h : Int.fract x < 1 / 2) :
    pyround x = ⌊x⌋ := by
  unfold pyround
  rw [if_neg (by intro he; rw [he] at h; linarith)]
  exact round_eq_floor_of_fract_lt x h

lemma pyround_ge_of_fract_gt (x : ℝ) (h : 1 / 2 < Int.fract x) :
    ⌊x⌋ + 1 ≤ pyround x := by
  unfold pyround
  rw [if_neg (by intro he; rw [he] at h; linarith)]
  exact round_ge_of_fract_ge x (le_of_lt h)

lemma pyround_mono {x y : ℝ} (h : x ≤ y) : pyround x ≤ pyround y := by
  rcases lt_or_le ⌊x⌋ ⌊y⌋ with hf | hf
  · calc pyround x ≤ ⌊x⌋ + 1 := pyround_le_floor_add_one x
    _ ≤ ⌊y⌋ := by omega
    _ ≤ pyround y := floor_le_pyround y
  · have hfe : ⌊x⌋ = ⌊y⌋ := le_antisymm (Int.floor_mono h) hf
    have hx : (⌊x⌋ : ℝ) + Int.fract x = x := Int.floor_add_fract x
    have hy : (⌊y⌋ : ℝ) + Int.fract y = y := Int.floor_add_fract y
    have hcast : ((⌊x⌋ : ℤ) : ℝ) = ((⌊y⌋ : ℤ) : ℝ) := by rw [hfe]
    have hfr : Int.fract x ≤ Int.fract y := by linarith
    rcases lt_trichotomy (Int.fract y) (1 / 2) with hy2 | hy2 | hy2
    · have hx2 : Int.fract x < 1 / 2 := lt_of_le_of_lt hfr hy2
      rw [pyround_eq_floor_of_fract_lt x hx2, pyround_eq_floor_of_fract_lt y hy2]
      omega
    · rcases lt_or_eq_of_le hfr with hx2 | hx2
      · rw [pyround_eq_floor_of_fract_lt x (hy2 ▸ hx2), hfe]
        exact floor_le_pyround y
      · have hxy : x = y := by rw [hy2] at hx2; linarith
        rw [hxy]
    · calc pyround x ≤ ⌊x⌋ + 1 := pyround_le_floor_add_one x
      _ = ⌊y⌋ + 1 := by omega
      _ ≤ pyround y := pyround_ge_of_fract_gt y hy2

lemma _sigmoid_zero : _sigmoid 0 = 1 / 2 := by
  unfold _sigmoid
  rw [neg_zero, Real.exp_zero]
  norm_num

lemma _sigmoid_pos (z : ℝ) : 0 < _sigmoid z := by
  unfold _sigmoid
  positivity

lemma _sigmoid_lt_one (z : ℝ) : _sigmoid z < 1 := by
  unfold _sigmoid
  rw [div_lt_one (by positivity)]
  have := Real.exp_pos (-z)
  linarith

lemma _sigmoid_mono {x y : ℝ} (h : x ≤ y) : _sigmoid x ≤ _sigmoid y := by
  unfold _sigmoid
  apply one_div_le_one_div_of_le
  · positivity
  · have := Real.exp_le_exp.mpr (neg_le_neg h)
    linarith

lemma score0_bounds (cap rentg inc incg vac : ℚ) (domv rti : Option ℚ)
    (n : Norms) : 0 ≤ score0_val cap rentg inc incg vac domv rti n ∧
      score0_val cap rentg inc incg vac domv rti n ≤ 100 := by
  unfold score0_val
  set z : ℝ :=
    ((_z (some (raw_val cap rentg inc incg vac domv rti n))
        n.raw_z.1 n.raw_z.2 : ℚ) : ℝ)
  have hpos : 0 < 100 * _sigmoid z := by
    have := _sigmoid_pos z
    linarith
  have hlt : 100 * _sigmoid z < 100 := by
    have := _sigmoid_lt_one z
    linarith
  constructor
  · have h1 : (0 : ℤ) ≤ ⌊100 * _sigmoid z⌋ := Int.floor_nonneg.mpr (le_of_lt hpos)
    have := floor_le_pyround (100 * _sigmoid z)
    omega
  · have h1 : ⌊100 * _sigmoid z⌋ < 100 := by
      apply Int.floor_lt.mpr
      push_cast
      exact hlt
    have := pyround_le_floor_add_one (100 * _sigmoid z)
    omega

lemma clamp_eq_self_of_bounds {v : ℤ} (h0 : 0 ≤ v) (h1 : v ≤ 100) :
    _clamp_int v 0 100 = v := by
  unfold _clamp_int
  omega

lemma clamp_int_mono {v w lo hi : ℤ} (h : v ≤ w) :
    _clamp_int v lo hi ≤ _clamp_int w lo hi := by
  unfold _clamp_int
  omega

lemma clip_lo_mono (c : ℚ) {a b : ℚ} (h : a ≤ b) :
    (if a < c then c else a) ≤ (if b < c then c else b) := by
  split_ifs <;> linarith

lemma clip_hi_mono (c : ℚ) {a b : ℚ} (h : a ≤ b) :
    (if a > c then c else a) ≤ (if b > c then c else b) := by
  split_ifs <;> linarith

lemma robust_minmax_none_none (x lo hi : ℚ) :
    _robust_minmax x lo hi none none =
      if hi = lo then 1 / 2 else (x - lo) / (hi - lo) := rfl

lemma robust_minmax_none_some (x lo hi b : ℚ) :
    _robust_minmax x lo hi none (some b) =
      if hi = lo then 1 / 2
      else ((if x > b then b else x) - lo) / (hi - lo) := rfl

lemma robust_minmax_some_none (x lo hi a : ℚ) :
    _robust_minmax x lo hi (some a) none =
      if hi = lo then 1 / 2
      else ((if x < a then a else x) - lo) / (hi - lo) := rfl

lemma robust_minmax_some_some (x lo hi a b : ℚ) :
    _robust_minmax x lo hi (some a) (some b) =
      if hi = lo then 1 / 2
      else ((if (if x < a then a else x) > b then b
             else (if x < a then a else x)) - lo) / (hi - lo) := rfl

lemma robust_minmax_mono {x1 x2 lo hi : ℚ} (c1 c2 : Option ℚ)
    (hlh : lo ≤ hi) (hx : x1 ≤ x2) :
    _robust_minmax x1 lo hi c1 c2 ≤ _robust_minmax x2 lo hi c1 c2 := by
  have key : ∀ y1 y2 : ℚ, y1 ≤ y2 →
      (if hi = lo then (1 : ℚ) / 2 else (y1 - lo) / (hi - lo)) ≤
        (if hi = lo then 1 / 2 else (y2 - lo) / (hi - lo)) := by
    intro y1 y2 hy
    split_ifs with he
    · exact le_refl _
    · have hpos : 0 < hi - lo := by
        rcases lt_or_eq_of_le hlh with h | h
        · linarith
        · exact absurd h.symm he
      rw [div_le_div_iff_of_pos_right hpos]
      linarith
  rcases c1 with _ | a <;> rcases c2 with _ | b
  · rw [robust_minmax_none_none, robust_minmax_none_none]
    exact key x1 x2 hx
  · rw [robust_minmax_none_some, robust_minmax_none_some]
    exact key _ _ (clip_hi_mono b hx)
  · rw [robust_minmax_some_none, robust_minmax_some_none]
    exact key _ _ (clip_lo_mono a hx)
  · rw [robust_minmax_some_some, robust_minmax_some_some]
    exact key _ _ (clip_hi_mono b (clip_lo_mono a hx))

lemma z_mono {x1 x2 mean std : ℚ} (hstd : 0 ≤ std) (hx : x1 ≤ x2) :
    _z (some x1) mean std ≤ _z (some x2) mean std := by
  unfold _z
  split_ifs with he
  · exact le_refl _
  · have hpos : 0 < std := lt_of_le_of_ne hstd (Ne.symm he)
    rw [div_le_div_iff_of_pos_right hpos]
    linarith

lemma okResult_score (cap rentg inc incg vac : ℚ) (domv rti : Option ℚ)
    (n : Norms) : (okResult cap rentg inc incg vac domv rti n).score =
      _clamp_int (score0_val cap rentg inc incg vac domv rti n) 0 100 := rfl

lemma okResult_decision (cap rentg inc incg vac : ℚ) (domv rti : Option ℚ)
    (n : Norms) : (okResult cap rentg inc incg vac domv rti n).decision =
      if 75 ≤ score0_val cap rentg inc incg vac domv rti n then "Buy"
      else if 55 ≤ score0_val cap rentg inc incg vac domv rti n then "Hold"
      else "Sell" := rfl

lemma okResult_factors (cap rentg inc incg vac : ℚ) (domv rti : Option ℚ)
    (n : Norms) : (okResult cap rentg inc incg vac domv rti n).factors =
      [⟨"Market Cap Rate", 35 / 100, cap, 35 / 100 * cap_norm_val cap n * 100⟩,
       ⟨"Projected Rent Growth (12m)", 35 / 100, rentg,
         35 / 100 * rentg_norm_val rentg n * 100⟩,
       ⟨"Market Strength Index (MSI)", 20 / 100, msi_val inc incg vac domv n,
         20 / 100 * msi_norm_val (msi_val inc incg vac domv n) n * 100⟩,
       ⟨"Affordability (1 - Rent/Inc)", 10 / 100, aff_value_val rti,
         10 / 100 * aff_norm_val (aff_value_val rti) n * 100⟩] := rfl

lemma sp_star : score_property mStar nStar = Except.ok rStar := by
  rw [score_property_eq_ok mStar nStar 0 0 0 0 0 rfl rfl rfl rfl rfl]
  have hdom : mStar.dom_now = none := rfl
  have hrti : mStar.rent_to_income = some 1 := rfl
  rw [hdom, hrti]
  have hs : score0_val 0 0 0 0 0 none (some 1) nStar = 50 := by
    have hraw : raw_val 0 0 0 0 0 none (some 1) nStar = 0 := by
      norm_num [raw_val, cap_norm_val, rentg_norm_val, msi_norm_val,
        aff_norm_val, aff_value_val, msi_val, dom_z_val, _z, _robust_minmax,
        nStar]
    unfold score0_val
    rw [hraw]
    have hz : _z (some 0) nStar.raw_z.1 nStar.raw_z.2 = 0 := by
      norm_num [_z, nStar]
    rw [hz]
    push_cast
    rw [_sigmoid_zero]
    norm_num [pyround_fifty]
  unfold okResult rStar
  rw [hs]
  norm_num [_clamp_int, msi_val, dom_z_val, _z, cap_norm_val, rentg_norm_val,
    msi_norm_val, aff_norm_val, aff_value_val, _robust_minmax, nStar, mStar]

lemma sortQ_sorted (l : List ℚ) : (sortQ l).Sorted (· ≤ ·) :=
  List.sorted_insertionSort (· ≤ ·) l

lemma sorted_getD_mono {s : List ℚ} (hs : s.Sorted (· ≤ ·)) {i j : ℕ}
    (hij : i ≤ j) (hj : j < s.length) : s.getD i 0 ≤ s.getD j 0 := by
  have hi : i < s.length := lt_of_le_of_lt hij hj
  rw [List.getD_eq_get s 0 hi, List.getD_eq_get s 0 hj]
  exact hs.rel_get_of_le hij

lemma sorted_getD_next {s : List ℚ} (hs : s.Sorted (· ≤ ·)) {i : ℕ}
    (hi : i < s.length) : s.getD i 0 ≤ s.getD (i + 1) (s.getD i 0) := by
  rcases lt_or_le (i + 1) s.length with h | h
  · rw [List.getD_eq_get s (s.getD i 0) h, List.getD_eq_get s 0 hi]
    exact hs.rel_get_of_le (by simp)
  · rw [List.getD_eq_default s (s.getD i 0) h]

lemma interp_mono {s : List ℚ} (hs : s.Sorted (· ≤ ·)) {h1 h2 : ℚ}
    (h0 : 0 ≤ h1) (h12 : h1 ≤ h2) (hub : h2 ≤ (s.length : ℚ) - 1) :
    interp s h1 ≤ interp s h2 := by
  have hf1 : (0 : ℤ) ≤ ⌊h1⌋ := Int.floor_nonneg.mpr h0
  have hf2 : (0 : ℤ) ≤ ⌊h2⌋ := Int.floor_nonneg.mpr (le_trans h0 h12)
  have hn1 : (1 : ℚ) ≤ (s.length : ℚ) := by linarith
  have hnz : 1 ≤ s.length := by exact_mod_cast hn1
  have hi2 : ⌊h2⌋.toNat < s.length := by
    have hfl : ⌊h2⌋ ≤ (s.length : ℤ) - 1 := by
      have ha : ⌊h2⌋ ≤ ⌊(s.length : ℚ) - 1⌋ := Int.floor_mono hub
      have hb : ((s.length : ℚ) - 1) = (((s.length : ℤ) - 1 : ℤ) : ℚ) := by
        push_cast
        ring
      rw [hb, Int.floor_intCast] at ha
      exact ha
    omega
  have hi1 : ⌊h1⌋.toNat < s.length := by
    have := Int.floor_mono h12
    omega
  have hfr1a : (⌊h1⌋ : ℚ) ≤ h1 := Int.floor_le h1
  have hfr1b : h1 - ⌊h1⌋ < 1 := by
    have := Int.lt_floor_add_one h1
    linarith
  have hfr2a : (⌊h2⌋ : ℚ) ≤ h2 := Int.floor_le h2
  unfold interp
  rcases eq_or_lt_of_le (Int.floor_mono h12) with hff | hff
  · rw [hff]
    have hslope := sorted_getD_next hs hi2
    apply add_le_add_left
    apply mul_le_mul_of_nonneg_right _ (by linarith)
    have : (⌊h1⌋ : ℚ) = (⌊h2⌋ : ℚ) := by exact_mod_cast congrArg Int.cast hff
    linarith
  · have hle : ⌊h1⌋.toNat + 1 ≤ ⌊h2⌋.toNat := by omega
    have hslope1 := sorted_getD_next hs hi1
    have hslope2 := sorted_getD_next hs hi2
    have hup : s.getD ⌊h1⌋.toNat 0 +
        (h1 - ⌊h1⌋) * (s.getD (⌊h1⌋.toNat + 1) (s.getD ⌊h1⌋.toNat 0)
          - s.getD ⌊h1⌋.toNat 0) ≤
        s.getD (⌊h1⌋.toNat + 1) (s.getD ⌊h1⌋.toNat 0) := by
      nlinarith [mul_le_mul_of_nonneg_right (le_of_lt hfr1b)
        (sub_nonneg.mpr hslope1)]
    have hmid : s.getD (⌊h1⌋.toNat + 1) (s.getD ⌊h1⌋.toNat 0) ≤
        s.getD ⌊h2⌋.toNat 0 := by
      have hin : ⌊h1⌋.toNat + 1 < s.length := lt_of_le_of_lt
        (Nat.lt_of_lt_of_le (Nat.lt_succ_self _) hle) hi2 |>.trans_le (le_refl _)
      rw [List.getD_eq_get s (s.getD ⌊h1⌋.toNat 0) hin,
        List.getD_eq_get s 0 hi2]
      exact hs.rel_get_of_le hle
    have hlow : s.getD ⌊h2⌋.toNat 0 ≤ s.getD ⌊h2⌋.toNat 0 +
        (h2 - ⌊h2⌋) * (s.getD (⌊h2⌋.toNat + 1) (s.getD ⌊h2⌋.toNat 0)
          - s.getD ⌊h2⌋.toNat 0) := by
      nlinarith [mul_nonneg (sub_nonneg.mpr hfr2a) (sub_nonneg.mpr hslope2)]
    linarith

lemma sp_ok_shape (m : Metrics) (n : Norms) (r : ScoreResult)
    (h : score_property m n = Except.ok r) :
    ∃ inc incg vac cap rentg,
      m.income_median_now = some inc ∧ m.income_growth_3y = some incg ∧
      m.vacancy_rate_now = some vac ∧ m.cap_rate_market_now = some cap ∧
      m.rent_growth_proj_12m = some rentg ∧
      r = okResult cap rentg inc incg vac m.dom_now m.rent_to_income n := by
  cases hinc : m.income_median_now with
  | none =>
    unfold score_property at h
    rw [hinc] at h
    simp at h
  | some inc =>
  cases hincg : m.income_growth_3y with
  | none =>
    unfold score_property at h
    rw [hinc, hincg] at h
    simp at h
  | some incg =>
  cases hvac : m.vacancy_rate_now with
  | none =>
    unfold score_property at h
    rw [hinc, hincg, hvac] at h
    simp at h
  | some vac =>
  cases hcap : m.cap_rate_market_now with
  | none =>
    unfold score_property at h
    rw [hinc, hincg, hvac, hcap] at h
    simp at h
  | some cap =>
  cases hrentg : m.rent_growth_proj_12m with
  | none =>
    unfold score_property at h
    rw [hinc, hincg, hvac, hcap, hrentg] at h
    simp at h
  | some rentg =>
    rw [score_property_eq_ok m n inc incg vac cap rentg hinc hincg hvac hcap
      hrentg] at h
    exact ⟨inc, incg, vac, cap, rentg, rfl, rfl, rfl, rfl, rfl,
      ((Except.ok.injEq _ _).mp h).symm⟩

lemma percentile_single (a q : ℚ) : percentile [a] q = a := by
  unfold percentile sortQ interp
  norm_num [List.insertionSort, List.orderedInsert]

lemma floor_eq_zero_of_unit {q : ℚ} (h0 : 0 ≤ q) (h1 : q < 1) : ⌊q⌋ = 0 :=
  Int.floor_eq_zero_iff.mpr (Set.mem_Ico.mpr ⟨h0, h1⟩)

lemma percentile_pair01 (q : ℚ) (h0 : 0 ≤ q) (h1 : q < 100) :
    percentile [(0 : ℚ), 1] q = q / 100 := by
  have hs : sortQ [(0 : ℚ), 1] = [0, 1] := by
    norm_num [sortQ, List.insertionSort, List.orderedInsert]
  unfold percentile
  rw [hs]
  have hlen : (([(0 : ℚ), 1] : List ℚ).length : ℚ) = 2 := by norm_num
  rw [if_neg (by norm_num)]
  have harg : q * ((([(0 : ℚ), 1] : List ℚ).length : ℚ) - 1) / 100 = q / 100 := by
    rw [hlen]
    ring
  rw [harg]
  have hfl : ⌊q / 100⌋ = 0 :=
    floor_eq_zero_of_unit (by positivity)
      ((div_lt_one (by norm_num : (0 : ℚ) < 100)).mpr h1)
  unfold interp
  rw [hfl]
  norm_num

lemma percentile_mono (l : List ℚ) {q1 q2 : ℚ} (h0 : 0 ≤ q1)
    (h12 : q1 ≤ q2) (h100 : q2 ≤ 100) :
    percentile l q1 ≤ percentile l q2 := by
  unfold percentile
  by_cases hn : (sortQ l).length = 0
  · rw [if_pos hn, if_pos hn]
  · rw [if_neg hn, if_neg hn]
    have hge : 1 ≤ (sortQ l).length := Nat.one_le_iff_ne_zero.mpr hn
    have hge1 : (1 : ℚ) ≤ ((sortQ l).length : ℚ) := by exact_mod_cast hge
    apply interp_mono (sortQ_sorted l)
    · apply div_nonneg _ (by norm_num)
      apply mul_nonneg h0
      linarith
    · apply div_le_div_of_nonneg_right _ (by norm_num)
      apply mul_le_mul_of_nonneg_right h12
      linarith
    · rw [div_le_iff₀ (by norm_num)]
      nlinarith

lemma raw_val_mono_cap {cap1 cap2 : ℚ} (rentg inc incg vac : ℚ)
    (domv rti : Option ℚ) (n : Norms)
    (hlh : n.cap_minmax.1 ≤ n.cap_minmax.2.1) (hcap : cap1 ≤ cap2) :
    raw_val cap1 rentg inc incg vac domv rti n ≤
      raw_val cap2 rentg inc incg vac domv rti n := by
  unfold raw_val cap_norm_val
  have := robust_minmax_mono n.cap_minmax.2.2.1 n.cap_minmax.2.2.2 hlh hcap
  linarith

lemma score0_mono_cap {cap1 cap2 : ℚ} (rentg inc incg vac : ℚ)
    (domv rti : Option ℚ) (n : Norms)
    (hlh : n.cap_minmax.1 ≤ n.cap_minmax.2.1) (hstd : 0 ≤ n.raw_z.2)
    (hcap : cap1 ≤ cap2) :
    score0_val cap1 rentg inc incg vac domv rti n ≤
      score0_val cap2 rentg inc incg vac domv rti n := by
  unfold score0_val
  apply pyround_mono
  apply mul_le_mul_of_nonneg_left _ (by norm_num : (0 : ℝ) ≤ 100)
  apply _sigmoid_mono
  have hq : _z (some (raw_val cap1 rentg inc incg vac domv rti n))
      n.raw_z.1 n.raw_z.2 ≤
      _z (some (raw_val cap2 rentg inc incg vac domv rti n))
        n.raw_z.1 n.raw_z.2 :=
    z_mono hstd (raw_val_mono_cap rentg inc incg vac domv rti n hlh hcap)
  exact_mod_cast hq

/-- C5: the decision label is a fixed function of the final integer score
of every score_property result: Buy iff score ≥ 75, Hold iff
55 ≤ score ≤ 74, Sell iff score < 55 (so 75 → Buy, 74 → Hold, 55 → Hold,
54 → Sell). -/
theorem c5_decision_thresholds (m : Metrics) (n : Norms) (r : ScoreResult)
    (h : score_property m n = Except.ok r) :
    (r.decision = "Buy" ↔ 75 ≤ r.score) ∧
    (r.decision = "Hold" ↔ 55 ≤ r.score ∧ r.score ≤ 74) ∧
    (r.decision = "Sell" ↔ r.score < 55) := by
  obtain ⟨inc, incg, vac, cap, rentg, h1, h2, h3, h4, h5, hr⟩ :=
    sp_ok_shape m n r h
  subst hr
  obtain ⟨hb0, hb100⟩ :=
    score0_bounds cap rentg inc incg vac m.dom_now m.rent_to_income n
  rw [okResult_decision, okResult_score, clamp_eq_self_of_bounds hb0 hb100]
  split_ifs with h75 h55 <;> refine ⟨?_, ?_, ?_⟩ <;> simp <;> omega

/-- C5 witness: a concrete run whose result has decision Sell and score
50, consistent with the threshold characterization. -/
theorem c5_witness :
    score_property mStar nStar = Except.ok rStar ∧
    ((rStar.decision = "Buy" ↔ 75 ≤ rStar.score) ∧
     (rStar.decision = "Hold" ↔ 55 ≤ rStar.score ∧ rStar.score ≤ 74) ∧
     (rStar.decision = "Sell" ↔ rStar.score < 55)) :=
  ⟨sp_star, c5_decision_thresholds mStar nStar rStar sp_star⟩

/-- C6: whenever every catalog key is present, score_property succeeds and
its score is an integer in [0, 100], however absurd the raw inputs. -/
theorem c6_score_range (m : Metrics) (n : Norms)
    (h1 : m.cap_rate_market_now.isSome = true)
    (h2 : m.rent_growth_proj_12m.isSome = true)
    (h3 : m.income_median_now.isSome = true)
    (h4 : m.income_growth_3y.isSome = true)
    (h5 : m.vacancy_rate_now.isSome = true)
    (h6 : m.dom_now.isSome = true)
    (h7 : m.rent_to_income.isSome = true) :
    isOk (score_property m n) = true ∧
    0 ≤ scoreOf (score_property m n) ∧ scoreOf (score_property m n) ≤ 100 := by
  obtain ⟨cap, hcap⟩ := Option.isSome_iff_exists.mp h1
  obtain ⟨rentg, hrentg⟩ := Option.isSome_iff_exists.mp h2
  obtain ⟨inc, hinc⟩ := Option.isSome_iff_exists.mp h3
  obtain ⟨incg, hincg⟩ := Option.isSome_iff_exists.mp h4
  obtain ⟨vac, hvac⟩ := Option.isSome_iff_exists.mp h5
  rw [score_property_eq_ok m n inc incg vac cap rentg hinc hincg hvac hcap
    hrentg]
  refine ⟨rfl, ?_, ?_⟩ <;>
    simp only [scoreOf, okResult_score, _clamp_int]
  · exact le_max_left 0 _
  · exact max_le (by norm_num) (min_le_left 100 _)

/-- C6 witness: all keys present with the absurd cap rate 2.0; the call
succeeds and the score stays inside [0, 100]. -/
theorem c6_witness :
    (mAbs.cap_rate_market_now.isSome = true ∧ mAbs.cap_rate_market_now = some 2) ∧
    (isOk (score_property mAbs nStar) = true ∧
     0 ≤ scoreOf (score_property mAbs nStar) ∧
     scoreOf (score_property mAbs nStar) ≤ 100) :=
  ⟨⟨rfl, rfl⟩, c6_score_range mAbs nStar rfl rfl rfl rfl rfl rfl rfl⟩

/-- C7: when the low and high normalization bounds coincide, both
normalizers return exactly 0.5 (and, being total functions, raise no
division error): _robust_minmax with hi = lo, and bounded_min_max when the
two percentile clips of a non-empty sample coincide. -/
theorem c7_degenerate_bounds :
    (∀ x lo : ℚ, ∀ c1 c2 : Option ℚ, _robust_minmax x lo lo c1 c2 = 1 / 2) ∧
    (∀ v : ℚ, ∀ vs : List ℚ, ∀ clip : ℚ × ℚ, vs ≠ [] →
      percentile vs (clip.2 * 100) = percentile vs (clip.1 * 100) →
      bounded_min_max v vs clip = 1 / 2) := by
  constructor
  · intro x lo c1 c2
    unfold _robust_minmax
    simp
  · intro v vs clip hvs heq
    unfold bounded_min_max
    rw [if_neg hvs, if_pos heq]

/-- C7 witness: the degenerate sample from the spec (a single repeated value
0.05) yields percentile bounds lo = hi = 0.05 and normalized value 0.5;
likewise _robust_minmax with lo = hi = 0.05. -/
theorem c7_witness :
    _robust_minmax 3 (1 / 20) (1 / 20) none none = 1 / 2 ∧
    ((([(1 : ℚ) / 20] : List ℚ) ≠ [] ∧
      percentile [(1 : ℚ) / 20] ((19 : ℚ) / 20 * 100) =
        percentile [(1 : ℚ) / 20] ((1 : ℚ) / 20 * 100)) ∧
     bounded_min_max 7 [(1 : ℚ) / 20] (1 / 20, 19 / 20) = 1 / 2) := by
  refine ⟨c7_degenerate_bounds.1 3 (1 / 20) none none, ⟨?_, ?_⟩, ?_⟩
  · simp
  · rw [percentile_single, percentile_single]
  · exact c7_degenerate_bounds.2 7 [(1 : ℚ) / 20] (1 / 20, 19 / 20)
      (by simp) (by rw [percentile_single, percentile_single])

/-- C10: a missing rent_to_income key is replaced by the constant 0.30, so
the whole result equals the result with rent_to_income = 0.30 supplied
explicitly: the affordability factor shows value 1 - 0.30 = 0.70 and is
normalized like a present value, and every other factor is unchanged. -/
theorem c10_rent_to_income_default (m : Metrics) (n : Norms)
    (inc incg vac cap rentg : ℚ)
    (h1 : m.income_median_now = some inc)
    (h2 : m.income_growth_3y = some incg)
    (h3 : m.vacancy_rate_now = some vac)
    (h4 : m.cap_rate_market_now = some cap)
    (h5 : m.rent_growth_proj_12m = some rentg)
    (hrti : m.rent_to_income = none) :
    score_property m n =
      score_property (Metrics.mk m.cap_rate_market_now
        m.rent_growth_proj_12m m.income_median_now m.income_growth_3y
        m.vacancy_rate_now m.dom_now (some (3 / 10))) n ∧
    (score_property m n).map (fun r => r.factors.map Factor.value) =
      Except.ok [cap, rentg, msi_val inc incg vac m.dom_now n, 7 / 10] ∧
    (score_property m n).map (fun r => r.factors.map Factor.contrib) =
      Except.ok [35 / 100 * cap_norm_val cap n * 100,
        35 / 100 * rentg_norm_val rentg n * 100,
        20 / 100 * msi_norm_val (msi_val inc incg vac m.dom_now n) n * 100,
        10 / 100 * _robust_minmax (7 / 10) n.aff_minmax.1 n.aff_minmax.2.1
          n.aff_minmax.2.2.1 n.aff_minmax.2.2.2 * 100] := by
  have e1 := score_property_eq_ok m n inc incg vac cap rentg h1 h2 h3 h4 h5
  have e2 := score_property_eq_ok
    (Metrics.mk m.cap_rate_market_now m.rent_growth_proj_12m
      m.income_median_now m.income_growth_3y m.vacancy_rate_now m.dom_now
      (some (3 / 10))) n inc incg vac cap rentg h1 h2 h3 h4 h5
  refine ⟨?_, ?_, ?_⟩
  · rw [e1, e2, hrti]
    rfl
  · rw [e1, hrti]
    simp only [Except.map, okResult_factors, List.map_cons, List.map_nil]
    norm_num [aff_value_val]
  · rw [e1, hrti]
    simp only [Except.map, okResult_factors, List.map_cons, List.map_nil]
    norm_num [aff_value_val, aff_norm_val]

/-- C10 witness: the neutral metrics row with rent_to_income absent. -/
theorem c10_witness :
    mNone.rent_to_income = none ∧
    (score_property mNone nStar =
      score_property (Metrics.mk mNone.cap_rate_market_now
        mNone.rent_growth_proj_12m mNone.income_median_now
        mNone.income_growth_3y mNone.vacancy_rate_now mNone.dom_now
        (some (3 / 10))) nStar ∧
     (score_property mNone nStar).map (fun r => r.factors.map Factor.value) =
       Except.ok [0, 0, msi_val 0 0 0 mNone.dom_now nStar, 7 / 10] ∧
     (score_property mNone nStar).map (fun r => r.factors.map Factor.contrib) =
       Except.ok [35 / 100 * cap_norm_val 0 nStar * 100,
         35 / 100 * rentg_norm_val 0 nStar * 100,
         20 / 100 * msi_norm_val (msi_val 0 0 0 mNone.dom_now nStar) nStar * 100,
         10 / 100 * _robust_minmax (7 / 10) nStar.aff_minmax.1
           nStar.aff_minmax.2.1 nStar.aff_minmax.2.2.1
           nStar.aff_minmax.2.2.2 * 100]) :=
  ⟨rfl, c10_rent_to_income_default mNone nStar 0 0 0 0 0 rfl rfl rfl rfl rfl rfl⟩

/-- C1 amended: score_property raises a KeyError whenever one of the five
required keys (income_median_now, income_growth_3y, vacancy_rate_now,
cap_rate_market_now, rent_growth_proj_12m) is absent; only dom_now and
rent_to_income are optional. -/
theorem c1_amended_missing_required_raises (m : Metrics) (n : Norms)
    (h : m.income_median_now = none ∨ m.income_growth_3y = none ∨
      m.vacancy_rate_now = none ∨ m.cap_rate_market_now = none ∨
      m.rent_growth_proj_12m = none) :
    isOk (score_property m n) = false := by
  cases h1 : m.income_median_now <;> cases h2 : m.income_growth_3y <;>
    cases h3 : m.vacancy_rate_now <;> cases h4 : m.cap_rate_market_now <;>
    cases h5 : m.rent_growth_proj_12m <;>
    simp_all [score_property, isOk]

/-- C1 counterexample: with cap_rate_market_now absent (and valid
distributions) scoring raises a KeyError instead of degrading. -/
theorem c1_counterexample :
    score_property mMiss nStar =
      Except.error "KeyError: cap_rate_market_now" := rfl

/-- C1 witness: the amended claim applied to the metrics row missing
cap_rate_market_now. -/
theorem c1_witness :
    (mMiss.income_median_now = none ∨ mMiss.income_growth_3y = none ∨
     mMiss.vacancy_rate_now = none ∨ mMiss.cap_rate_market_now = none ∨
     mMiss.rent_growth_proj_12m = none) ∧
    isOk (score_property mMiss nStar) = false :=
  ⟨Or.inr (Or.inr (Or.inr (Or.inl rfl))),
   c1_amended_missing_required_raises mMiss nStar
     (Or.inr (Or.inr (Or.inr (Or.inl rfl))))⟩

/-- C9 amended: the factor list of every result is in fixed catalog
declaration order (cap rate, rent growth, MSI, affordability); it is
deterministic but never sorted by contribution. -/
theorem c9_amended_fixed_order (m : Metrics) (n : Norms) (r : ScoreResult)
    (h : score_property m n = Except.ok r) :
    r.factors.map Factor.name =
      ["Market Cap Rate", "Projected Rent Growth (12m)",
       "Market Strength Index (MSI)", "Affordability (1 - Rent/Inc)"] := by
  obtain ⟨inc, incg, vac, cap, rentg, h1, h2, h3, h4, h5, hr⟩ :=
    sp_ok_shape m n r h
  subst hr
  rw [okResult_factors]
  simp

/-- C9 counterexample: a run whose absolute contributions are
[0, 35, 0, 0], which is not descending, so the returned list is not
ordered by absolute contribution. -/
theorem c9_counterexample :
    (score_property mC9 nStar).map (fun r => r.factors.map Factor.contrib) =
      Except.ok [0, 35, 0, 0] ∧
    ¬ List.Sorted (fun a b : ℚ => |b| ≤ |a|) [(0 : ℚ), 35, 0, 0] := by
  constructor
  · rw [score_property_eq_ok mC9 nStar 0 0 0 0 1 rfl rfl rfl rfl rfl]
    simp only [Except.map, okResult_factors, List.map_cons, List.map_nil]
    norm_num [cap_norm_val, rentg_norm_val, msi_norm_val, aff_norm_val,
      aff_value_val, msi_val, dom_z_val, _z, _robust_minmax, nStar, mC9]
  · intro hs
    rw [List.sorted_cons] at hs
    have h35 := hs.1 35 (by simp)
    rw [abs_of_nonneg (le_refl (0 : ℚ))] at h35
    norm_num at h35

/-- C9 witness: the fixed-order theorem applied to a concrete run. -/
theorem c9_witness :
    score_property mStar nStar = Except.ok rStar ∧
    rStar.factors.map Factor.name =
      ["Market Cap Rate", "Projected Rent Growth (12m)",
       "Market Strength Index (MSI)", "Affordability (1 - Rent/Inc)"] :=
  ⟨sp_star, c9_amended_fixed_order mStar nStar rStar sp_star⟩

/-- C2: evaluation at the failing input.  _robust_minmax with bounds
(-3, 3) and no clips maps the raw value 10 to 13/6, outside [0, 1] and
different from the claimed clamp formula (which gives 1); inside a scoring
run this surfaces as an MSI point contribution of 130/3 > 20, impossible
for a normalized value in [0, 1] under weight 0.20. -/
theorem c2_bug_eval :
    _robust_minmax 10 (-3) 3 none none = 13 / 6 ∧
    ¬ _robust_minmax 10 (-3) 3 none none ≤ 1 ∧
    (max (-3) (min 3 (10 : ℚ)) - (-3)) / (3 - (-3)) = 1 ∧
    (score_property mMsi nMsi).map (fun r => r.factors.map Factor.contrib) =
      Except.ok [0, 0, 130 / 3, 0] ∧
    ¬ (130 / 3 : ℚ) ≤ 20 / 100 * 1 * 100 := by
  refine ⟨?_, ?_, ?_, ?_, ?_⟩
  · norm_num [_robust_minmax]
  · norm_num [_robust_minmax]
  · norm_num
  · rw [score_property_eq_ok mMsi nMsi 10 0 0 0 0 rfl rfl rfl rfl rfl]
    simp only [Except.map, okResult_factors, List.map_cons, List.map_nil]
    norm_num [cap_norm_val, rentg_norm_val, msi_norm_val, aff_norm_val,
      aff_value_val, msi_val, dom_z_val, _z, _robust_minmax, nMsi, mMsi]
  · norm_num

/-- C3 counterexample: a run whose weighted composite is 0, whose claimed
score round(100 x composite) clamped is 0, but whose actual score is 50
(the sigmoid of the z-scored composite at z = -mean/std = 0). -/
theorem c3_counterexample :
    scoreOf (score_property mStar nStar) = 50 ∧
    35 / 100 * cap_norm_val 0 nStar + 35 / 100 * rentg_norm_val 0 nStar
      + 20 / 100 * msi_norm_val (msi_val 0 0 0 none nStar) nStar
      + 10 / 100 * aff_norm_val (aff_value_val (some 1)) nStar = 0 ∧
    _clamp_int (pyround ((100 : ℝ) * (((0 : ℚ) : ℚ) : ℝ))) 0 100 = 0 ∧
    (50 : ℤ) ≠ 0 := by
  refine ⟨?_, ?_, ?_, by norm_num⟩
  · rw [sp_star]
    rfl
  · norm_num [cap_norm_val, rentg_norm_val, msi_norm_val, aff_norm_val,
      aff_value_val, msi_val, dom_z_val, _z, _robust_minmax, nStar]
  · have h : ((100 : ℝ) * (((0 : ℚ) : ℚ) : ℝ)) = ((0 : ℤ) : ℝ) := by
      push_cast
      ring
    rw [h, pyround_intCast]
    norm_num [_clamp_int]

/-- C3 amended: the final score is round-half-even of 100 times the
sigmoid of the z-scored weighted composite, clamped to [0, 100] as an
integer - not round(100 x composite). -/
theorem c3_amended_score_formula (m : Metrics) (n : Norms)
    (inc incg vac cap rentg : ℚ)
    (h1 : m.income_median_now = some inc)
    (h2 : m.income_growth_3y = some incg)
    (h3 : m.vacancy_rate_now = some vac)
    (h4 : m.cap_rate_market_now = some cap)
    (h5 : m.rent_growth_proj_12m = some rentg) :
    (score_property m n).map ScoreResult.score =
      Except.ok (_clamp_int (pyround (100 * _sigmoid
        ((_z (some (35 / 100 * cap_norm_val cap n
            + 35 / 100 * rentg_norm_val rentg n
            + 20 / 100 * msi_norm_val (msi_val inc incg vac m.dom_now n) n
            + 10 / 100 * aff_norm_val (aff_value_val m.rent_to_income) n))
          n.raw_z.1 n.raw_z.2 : ℚ) : ℝ))) 0 100) := by
  rw [score_property_eq_ok m n inc incg vac cap rentg h1 h2 h3 h4 h5]
  rfl

/-- C3 witness: the amended formula at the neutral input, where the
composite is 0 and the resulting score is 50. -/
theorem c3_witness :
    (score_property mStar nStar).map ScoreResult.score =
      Except.ok (_clamp_int (pyround (100 * _sigmoid
        ((_z (some (35 / 100 * cap_norm_val 0 nStar
            + 35 / 100 * rentg_norm_val 0 nStar
            + 20 / 100 * msi_norm_val (msi_val 0 0 0 mStar.dom_now nStar) nStar
            + 10 / 100 * aff_norm_val (aff_value_val mStar.rent_to_income)
              nStar))
          nStar.raw_z.1 nStar.raw_z.2 : ℚ) : ℝ))) 0 100) :=
  c3_amended_score_formula mStar nStar 0 0 0 0 0 rfl rfl rfl rfl rfl

/-- C8: raising cap_rate_market_now while holding all other metrics fixed
never decreases the final score, for every distributions mapping that
satisfies the Distribution invariant of the spec (non-decreasing cap-rate
bounds, nonnegative raw_z standard deviation), as every calibrated
mapping does. -/
theorem c8_monotonicity_cap_rate (m : Metrics) (n : Norms)
    (cap1 cap2 inc incg vac rentg : ℚ)
    (h1 : m.income_median_now = some inc)
    (h2 : m.income_growth_3y = some incg)
    (h3 : m.vacancy_rate_now = some vac)
    (h5 : m.rent_growth_proj_12m = some rentg)
    (hlh : n.cap_minmax.1 ≤ n.cap_minmax.2.1) (hstd : 0 ≤ n.raw_z.2)
    (hcap : cap1 ≤ cap2) :
    scoreOf (score_property (Metrics.mk (some cap1)
      m.rent_growth_proj_12m m.income_median_now m.income_growth_3y
      m.vacancy_rate_now m.dom_now m.rent_to_income) n) ≤
    scoreOf (score_property (Metrics.mk (some cap2)
      m.rent_growth_proj_12m m.income_median_now m.income_growth_3y
      m.vacancy_rate_now m.dom_now m.rent_to_income) n) := by
  rw [score_property_eq_ok (Metrics.mk (some cap1) m.rent_growth_proj_12m
    m.income_median_now m.income_growth_3y m.vacancy_rate_now m.dom_now
    m.rent_to_income) n inc incg vac cap1 rentg h1 h2 h3 rfl h5]
  rw [score_property_eq_ok (Metrics.mk (some cap2) m.rent_growth_proj_12m
    m.income_median_now m.income_growth_3y m.vacancy_rate_now m.dom_now
    m.rent_to_income) n inc incg vac cap2 rentg h1 h2 h3 rfl h5]
  simp only [scoreOf, okResult_score]
  exact clamp_int_mono (score0_mono_cap rentg inc incg vac m.dom_now
    m.rent_to_income n hlh hstd hcap)

/-- C8 witness: the concrete pair from the spec, cap 0.04 versus 0.065, under
calibration-shaped norms (cap bounds 0 ≤ 1, raw_z std 1 ≥ 0). -/
theorem c8_witness :
    (mStar.income_median_now = some 0 ∧
     nStar.cap_minmax.1 ≤ nStar.cap_minmax.2.1 ∧ (0 : ℚ) ≤ nStar.raw_z.2 ∧
     (1 / 25 : ℚ) ≤ 13 / 200) ∧
    scoreOf (score_property (Metrics.mk (some (1 / 25))
      mStar.rent_growth_proj_12m mStar.income_median_now
      mStar.income_growth_3y mStar.vacancy_rate_now mStar.dom_now
      mStar.rent_to_income) nStar) ≤
    scoreOf (score_property (Metrics.mk (some (13 / 200))
      mStar.rent_growth_proj_12m mStar.income_median_now
      mStar.income_growth_3y mStar.vacancy_rate_now mStar.dom_now
      mStar.rent_to_income) nStar) :=
  ⟨⟨rfl, by norm_num [nStar], by norm_num [nStar], by norm_num⟩,
   c8_monotonicity_cap_rate mStar nStar (1 / 25) (13 / 200) 0 0 0 0
     rfl rfl rfl rfl (by norm_num [nStar]) (by norm_num [nStar])
     (by norm_num)⟩

/-- C4 amended: for every dataset, calibration stores as the min-max
bounds the two percentiles {5, 95} of the cap, rent-growth and
affordability samples (linear interpolation between order statistics),
with the cap and rent-growth percentiles repeated as clip bounds and no
clips for affordability; the MSI bounds are the constants (-3, 3); and the
stored lo never exceeds the stored hi. -/
theorem c4_amended_calibration_bounds (d : Dataset) :
    (build_norms_from_dataset d (5, 95)).cap_minmax =
      (percentile d.cap 5, percentile d.cap 95,
       some (percentile d.cap 5), some (percentile d.cap 95)) ∧
    (build_norms_from_dataset d (5, 95)).rentg_minmax =
      (percentile d.rentg_12m 5, percentile d.rentg_12m 95,
       some (percentile d.rentg_12m 5), some (percentile d.rentg_12m 95)) ∧
    (build_norms_from_dataset d (5, 95)).aff_minmax =
      (percentile d.aff 5, percentile d.aff 95, none, none) ∧
    (build_norms_from_dataset d (5, 95)).msi_minmax = (-3, 3, none, none) ∧
    percentile d.cap 5 ≤ percentile d.cap 95 ∧
    percentile d.rentg_12m 5 ≤ percentile d.rentg_12m 95 ∧
    percentile d.aff 5 ≤ percentile d.aff 95 := by
  refine ⟨rfl, rfl, rfl, rfl, ?_, ?_, ?_⟩ <;>
    exact percentile_mono _ (by norm_num) (by norm_num) (by norm_num)

/-- C4 counterexample: on the cap sample [0, 1] the stored bounds are the
{5, 95} percentiles (0.05, 0.95), not the {10, 50, 90, 98} percentiles
(0.10, 0.50, 0.90, 0.98) the claim describes. -/
theorem c4_counterexample :
    (build_norms_from_dataset dStar (5, 95)).cap_minmax =
      (1 / 20, 19 / 20, some (1 / 20), some (19 / 20)) ∧
    percentile dStar.cap 10 = 1 / 10 ∧
    percentile dStar.cap 50 = 1 / 2 ∧
    percentile dStar.cap 90 = 9 / 10 ∧
    percentile dStar.cap 98 = 49 / 50 ∧
    (1 / 20 : ℚ) ≠ 1 / 10 ∧ (19 / 20 : ℚ) ≠ 49 / 50 := by
  have hc : dStar.cap = [0, 1] := rfl
  have e5 : percentile [(0 : ℚ), 1] 5 = 1 / 20 := by
    rw [percentile_pair01 5 (by norm_num) (by norm_num)]
    norm_num
  have e95 : percentile [(0 : ℚ), 1] 95 = 19 / 20 := by
    rw [percentile_pair01 95 (by norm_num) (by norm_num)]
    norm_num
  refine ⟨?_, ?_, ?_, ?_, ?_, by norm_num, by norm_num⟩
  · have hb : (build_norms_from_dataset dStar (5, 95)).cap_minmax =
        (percentile [(0 : ℚ), 1] 5, percentile [(0 : ℚ), 1] 95,
         some (percentile [(0 : ℚ), 1] 5),
         some (percentile [(0 : ℚ), 1] 95)) := rfl
    rw [hb, e5, e95]
  · rw [hc, percentile_pair01 10 (by norm_num) (by norm_num)]
    norm_num
  · rw [hc, percentile_pair01 50 (by norm_num) (by norm_num)]
    norm_num
  · rw [hc, percentile_pair01 90 (by norm_num) (by norm_num)]
    norm_num
  · rw [hc, percentile_pair01 98 (by norm_num) (by norm_num)]
    norm_num

end Scoring
